import Mathlib

/-!
Verification of `components/common/src/types.rs` from the habitat repository.

Shallow embedding conventions:
* Rust strings are modelled as `String` when only emptiness matters, and as
  `List Char` where character-level splitting/parsing is involved.
* `std::net::IpAddr` is an inductive with a V4 and a V6 constructor; octets
  and segments are `Nat` (their bounds play no role in the claims).
* `std::net::SocketAddr` is modelled as an ip/port pair.  The Rust type is an
  enum of `SocketAddrV4`/`SocketAddrV6`; the V6 `flowinfo`/`scope_id` fields
  are never touched by the code under verification, and `SocketAddr::set_ip`
  switches the variant according to the family of the new ip while keeping
  the port, which the pair model captures directly.
* Fallible Rust functions return `Except`; a Rust `panic!`/`expect` branch is
  modelled as `Option.none`.
* Methods taking `&self` and returning a new value are pure Lean functions;
  the original argument is never mutated by construction.
-/

namespace Habitat

/-- Model of `std::net::IpAddr`: either four IPv4 octets or eight IPv6
16-bit segments. -/
inductive IpAddr where
  | v4 (a b c d : Nat) : IpAddr
  | v6 (s0 s1 s2 s3 s4 s5 s6 s7 : Nat) : IpAddr
  deriving DecidableEq

namespace IpAddr

/-- Model of `IpAddr::is_unspecified`: `0.0.0.0` for V4, `::` for V6. -/
def is_unspecified : IpAddr → Bool
  | .v4 a b c d => a = 0 && b = 0 && c = 0 && d = 0
  | .v6 s0 s1 s2 s3 s4 s5 s6 s7 =>
      s0 = 0 && s1 = 0 && s2 = 0 && s3 = 0 && s4 = 0 && s5 = 0 && s6 = 0 && s7 = 0

/-- Model of `IpAddr::is_loopback`: first octet 127 for V4, `::1` for V6. -/
def is_loopback : IpAddr → Bool
  | .v4 a _ _ _ => a = 127
  | .v6 s0 s1 s2 s3 s4 s5 s6 s7 =>
      s0 = 0 && s1 = 0 && s2 = 0 && s3 = 0 && s4 = 0 && s5 = 0 && s6 = 0 && s7 = 1

/-- Whether the address is in the IPv4 family (`SocketAddr::is_ipv4` on the
enclosing socket address). -/
def is_ipv4 : IpAddr → Bool
  | .v4 _ _ _ _ => true
  | .v6 _ _ _ _ _ _ _ _ => false

end IpAddr

/-- Model of `std::net::SocketAddr` as an ip/port pair (see module comment). -/
structure SocketAddr where
  ip : IpAddr
  port : Nat
  deriving DecidableEq

/-- `GossipListenAddr` is a newtype over `SocketAddr`
(`habitat_core::env_config_socketaddr!` generates `pub struct GossipListenAddr(SocketAddr)`). -/
structure GossipListenAddr where
  addr : SocketAddr
  deriving DecidableEq

namespace GossipListenAddr

/-- `GossipListenAddr::DEFAULT_PORT`. -/
def DEFAULT_PORT : Nat := 9638

/-- Modelled from the spec: the `Default` impl for `GossipListenAddr` is
generated by the `habitat_core::env_config_socketaddr!` macro, whose source is
not part of this repository slice; the invocation in `types.rs` passes octets
`0, 0, 0, 0` and port `Self::DEFAULT_PORT`, and the spec states the gossip
default is the unspecified IPv4 address with port 9638. -/
def default : GossipListenAddr :=
  ⟨⟨.v4 0 0 0 0, DEFAULT_PORT⟩⟩

/-- `GossipListenAddr::local_only`: the fixed address `127.0.0.2:9638`. -/
def local_only : GossipListenAddr :=
  ⟨⟨.v4 127 0 0 2, DEFAULT_PORT⟩⟩

/-- `GossipListenAddr::local_addr`: copy the address; if its ip is
unspecified, set the ip to `127.0.0.1` (keeping the port, as
`SocketAddr::set_ip` does); return the copy. -/
def local_addr (g : GossipListenAddr) : GossipListenAddr :=
  if g.addr.ip.is_unspecified then
    ⟨⟨.v4 127 0 0 1, g.addr.port⟩⟩
  else
    g

end GossipListenAddr

/-- `HttpListenAddr` newtype over `SocketAddr` (macro-generated). -/
structure HttpListenAddr where
  addr : SocketAddr
  deriving DecidableEq

namespace HttpListenAddr

/-- Modelled from the spec: the macro-generated `Default` for
`HttpListenAddr`; the invocation passes octets `0, 0, 0, 0` and port `9631`,
matching the spec's "HTTP default: unspecified IPv4, port 9631". -/
def default : HttpListenAddr :=
  ⟨⟨.v4 0 0 0 0, 9631⟩⟩

/-- `HttpListenAddr::new`. -/
def new (ip : IpAddr) (port : Nat) : HttpListenAddr := ⟨⟨ip, port⟩⟩

end HttpListenAddr

/-- `ListenCtlAddr` newtype over `SocketAddr` (macro-generated). -/
structure ListenCtlAddr where
  addr : SocketAddr
  deriving DecidableEq

namespace ListenCtlAddr

/-- `ListenCtlAddr::DEFAULT_PORT`. -/
def DEFAULT_PORT : Nat := 9632

/-- Modelled from the spec: the macro-generated `Default` for
`ListenCtlAddr`; the invocation passes `Ipv4Addr::LOCALHOST`
(`127.0.0.1`) and `Self::DEFAULT_PORT`, matching the spec's "Control
default: IPv4 loopback, port 9632". -/
def default : ListenCtlAddr :=
  ⟨⟨.v4 127 0 0 1, DEFAULT_PORT⟩⟩

/-- `ListenCtlAddr::ip`. -/
def ip (a : ListenCtlAddr) : IpAddr := a.addr.ip

/-- `ListenCtlAddr::port`. -/
def port (a : ListenCtlAddr) : Nat := a.addr.port

end ListenCtlAddr

/-- The crate error type; only the variant produced by
`AutomateAuthToken::from_str` is modelled. -/
inductive Error where
  | InvalidEventStreamToken (s : String) : Error
  deriving DecidableEq

/-- `AutomateAuthToken` is a newtype over the token string. -/
structure AutomateAuthToken where
  token : String
  deriving DecidableEq

namespace AutomateAuthToken

/-- `AutomateAuthToken::from_str`: reject the empty string with
`Error::InvalidEventStreamToken` carrying the offending input, accept any
other string verbatim. -/
def from_str (s : String) : Except Error AutomateAuthToken :=
  if s.isEmpty then .error (.InvalidEventStreamToken s)
  else .ok ⟨s⟩

/-- Model of the `fmt::Display` impl: renders the wrapped string. -/
def display (t : AutomateAuthToken) : String := t.token

end AutomateAuthToken

/-- Kinds of `std::num::ParseIntError` reachable when parsing a `u64` in
base 10 (`Empty`, `InvalidDigit`, `PosOverflow`). -/
inductive IntErrorKind where
  | empty : IntErrorKind
  | invalidDigit : IntErrorKind
  | posOverflow : IntErrorKind
  deriving DecidableEq

/-- Digit-accumulation loop of `u64::from_str` (base 10): consume decimal
digits left to right, failing with `InvalidDigit` at the first non-digit and
with `PosOverflow` as soon as the accumulator would exceed `u64::MAX`. -/
def parseU64Digits : List Char → Nat → Except IntErrorKind Nat
  | [], acc => .ok acc
  | c :: cs, acc =>
    if c.isDigit then
      let acc' := acc * 10 + (c.toNat - Char.toNat '0')
      if acc' < 2 ^ 64 then parseU64Digits cs acc'
      else .error .posOverflow
    else .error .invalidDigit

/-- Model of `u64::from_str` (as used through `s.parse()?` in
`EventStreamConnectMethod::from_str`): the empty string is `Empty`, a lone
sign is `InvalidDigit`, a leading `+` is stripped, a `-` is not a valid
digit for an unsigned type, and the rest is the digit loop. -/
def parseU64 (s : List Char) : Except IntErrorKind Nat :=
  match s with
  | [] => .error .empty
  | ['+'] => .error .invalidDigit
  | '+' :: rest => parseU64Digits rest 0
  | _ => parseU64Digits s 0

/-- `EventStreamConnectMethod`: connect immediately, or wait a timeout of
`secs` seconds. -/
inductive EventStreamConnectMethod where
  | Immediate : EventStreamConnectMethod
  | Timeout (secs : Nat) : EventStreamConnectMethod
  deriving DecidableEq

namespace EventStreamConnectMethod

/-- `EventStreamConnectMethod::from_str`: parse the string as a `u64`
(propagating the parse error); zero yields `Immediate`, anything else
`Timeout`. -/
def from_str (s : List Char) : Except IntErrorKind EventStreamConnectMethod :=
  match parseU64 s with
  | .error e => .error e
  | .ok secs =>
    if secs = 0 then .ok .Immediate
    else .ok (.Timeout secs)

end EventStreamConnectMethod

/-- Model of `std::time::Duration` restricted to whole seconds, which is all
`Duration::from_secs` produces here. -/
structure Duration where
  secs : Nat
  deriving DecidableEq

/-- `Duration::from_secs`. -/
def Duration.from_secs (n : Nat) : Duration := ⟨n⟩

/-- The `Into<Option<Duration>>` impl for `EventStreamConnectMethod`. -/
def EventStreamConnectMethod.intoDuration : EventStreamConnectMethod → Option Duration
  | .Immediate => none
  | .Timeout secs => some (Duration.from_secs secs)

/-- Modelled from the spec: `habitat_core::env::Config::configured_value`
(the `habitat_core` crate is not part of this repository slice).  Per the
spec's Environment Resolver contract: read the type's named environment
variable (`env` is its value, `none` when the variable is absent); absent
yields the type's default; present but unparsable yields the default with no
error surfaced; present and parsable yields the parsed value.  `parseT` and
`default` stand for the configured type's `FromStr` and `Default` impls. -/
def configured_value {T E : Type} (parseT : String → Except E T) (default : T)
    (env : Option String) : T :=
  match env with
  | none => default
  | some raw =>
    match parseT raw with
    | .ok v => v
    | .error _ => default

namespace EventStreamMetadata

/-- Model of Rust `raw.split('=').collect::<Vec<_>>()`: the list of maximal
`'='`-free chunks of the input, one more chunk than there are separators
(so the empty input yields one empty chunk, exactly as in Rust). -/
def splitOnEq : List Char → List (List Char)
  | [] => [[]]
  | c :: cs =>
    if c = '=' then [] :: splitOnEq cs
    else
      match splitOnEq cs with
      | [] => [[c]]
      | p :: ps => (c :: p) :: ps

/-- The fixed text of the `split_raw` error message (the Rust `format!`
string, whose trailing placeholder is filled with the offending token). -/
def invalidPairMsg : List Char :=
  "Invalid key-value pair given (must be \x27=\x27-delimited pair of non-empty strings): ".toList

/-- `EventStreamMetadata::split_raw`: split on `'='`; exactly two chunks,
both non-empty, yield the key-value pair; every other shape yields the
error message followed by the offending token. -/
def split_raw (raw : List Char) : Except (List Char) (List Char × List Char) :=
  match splitOnEq raw with
  | [key, value] =>
    if !key.isEmpty && !value.isEmpty then .ok (key, value)
    else .error (invalidPairMsg ++ raw)
  | _ => .error (invalidPairMsg ++ raw)

/-- `EventStreamMetadata::validate`: `split_raw` with the pair discarded. -/
def validate (value : List Char) : Except (List Char) Unit :=
  (split_raw value).map (fun _ => ())

/-- `EventStreamMetadata::split_validated`: `split_raw` with the error case
turned into a panic (`expect`); the panic branch is modelled as `none`. -/
def split_validated (validated_input : List Char) : Option (List Char × List Char) :=
  match split_raw validated_input with
  | .ok p => some p
  | .error _ => none

/-- Inverse of `splitOnEq`: rejoin chunks with the `'='` separator. -/
def joinSep : List (List Char) → List Char
  | [] => []
  | [p] => p
  | p :: ps => p ++ '=' :: joinSep ps

theorem splitOnEq_ne_nil (l : List Char) : splitOnEq l ≠ [] := by
  cases l with
  | nil => simp [splitOnEq]
  | cons c cs =>
    simp only [splitOnEq]
    by_cases h : c = '='
    · simp [h]
    · simp only [if_neg h]
      cases hs : splitOnEq cs with
      | nil => simp
      | cons p ps => simp

theorem splitOnEq_no_sep {l : List Char} (h : '=' ∉ l) : splitOnEq l = [l] := by
  induction l with
  | nil => rfl
  | cons c cs ih =>
    have hc : c ≠ '=' := fun hc => h (hc ▸ List.mem_cons_self c cs)
    have hcs : '=' ∉ cs := fun hm => h (List.mem_cons_of_mem _ hm)
    simp only [splitOnEq, if_neg hc, ih hcs]

theorem splitOnEq_append (k v : List Char) (hk : '=' ∉ k) :
    splitOnEq (k ++ '=' :: v) = k :: splitOnEq v := by
  induction k with
  | nil => simp [splitOnEq]
  | cons c k' ih =>
    have hc : c ≠ '=' := fun hc => hk (hc ▸ List.mem_cons_self c k')
    have hk' : '=' ∉ k' := fun hm => hk (List.mem_cons_of_mem _ hm)
    simp only [List.cons_append, splitOnEq, if_neg hc]
    have ih' : splitOnEq (List.append k' ('=' :: v)) = k' :: splitOnEq v := ih hk'
    rw [ih']

theorem mem_splitOnEq {l p : List Char} (hp : p ∈ splitOnEq l) : '=' ∉ p := by
  induction l generalizing p with
  | nil =>
    simp [splitOnEq] at hp
    subst hp
    simp
  | cons c cs ih =>
    by_cases hc : c = '='
    · simp only [splitOnEq, if_pos hc, List.mem_cons] at hp
      rcases hp with h | h
      · subst h
        simp
      · exact ih h
    · simp only [splitOnEq, if_neg hc] at hp
      cases hs : splitOnEq cs with
      | nil => exact absurd hs (splitOnEq_ne_nil cs)
      | cons q qs =>
        rw [hs] at hp
        simp only [List.mem_cons] at hp
        rcases hp with h | h
        · subst h
          have hq : '=' ∉ q := ih (by rw [hs]; exact List.mem_cons_self q qs)
          simp only [List.mem_cons, not_or]
          exact ⟨fun hx => hc hx.symm, hq⟩
        · exact ih (by rw [hs]; exact List.mem_cons_of_mem q h)

theorem splitOnEq_join (l : List Char) : joinSep (splitOnEq l) = l := by
  induction l with
  | nil => rfl
  | cons c cs ih =>
    by_cases hc : c = '='
    · subst hc
      simp only [splitOnEq, if_pos rfl]
      cases hs : splitOnEq cs with
      | nil => exact absurd hs (splitOnEq_ne_nil cs)
      | cons q qs =>
        rw [hs] at ih
        show [] ++ '=' :: joinSep (q :: qs) = '=' :: cs
        rw [List.nil_append, ih]
    · simp only [splitOnEq, if_neg hc]
      cases hs : splitOnEq cs with
      | nil => exact absurd hs (splitOnEq_ne_nil cs)
      | cons q qs =>
        rw [hs] at ih
        cases qs with
        | nil =>
          show c :: q = c :: cs
          rw [show joinSep [q] = q from rfl] at ih
          rw [ih]
        | cons r rs =>
          show (c :: q) ++ '=' :: joinSep (r :: rs) = c :: cs
          rw [List.cons_append]
          rw [show joinSep (q :: r :: rs) = q ++ '=' :: joinSep (r :: rs) from rfl] at ih
          rw [ih]

theorem split_raw_ok_iff (raw k v : List Char) :
    split_raw raw = .ok (k, v) ↔
      (raw = k ++ '=' :: v ∧ '=' ∉ k ∧ '=' ∉ v ∧ k ≠ [] ∧ v ≠ []) := by
  constructor
  · intro h
    unfold split_raw at h
    cases hs : splitOnEq raw with
    | nil => exact absurd hs (splitOnEq_ne_nil raw)
    | cons p ps =>
      rw [hs] at h
      cases ps with
      | nil => simp at h
      | cons q qs =>
        cases qs with
        | nil =>
          have h' : (if (!p.isEmpty && !q.isEmpty) = true
              then Except.ok (p, q)
              else Except.error (invalidPairMsg ++ raw)) =
                (Except.ok (k, v) :
                  Except (List Char) (List Char × List Char)) := h
          by_cases hpq : (!p.isEmpty && !q.isEmpty) = true
          · rw [if_pos hpq] at h'
            have hjoin := splitOnEq_join raw
            rw [hs] at hjoin
            have hraw : raw = p ++ '=' :: q := by
              rw [← hjoin]
              rfl
            have hp : '=' ∉ p := mem_splitOnEq (hs ▸ List.mem_cons_self p [q])
            have hq : '=' ∉ q :=
              mem_splitOnEq (hs ▸ List.mem_cons_of_mem p (List.mem_cons_self q []))
            simp only [Bool.and_eq_true, Bool.not_eq_true'] at hpq
            rw [Except.ok.injEq, Prod.mk.injEq] at h'
            obtain ⟨h1, h2⟩ := h'
            subst h1
            subst h2
            refine ⟨hraw, hp, hq, ?_, ?_⟩
            · intro h0
              rw [h0] at hpq
              simp at hpq
            · intro h0
              rw [h0] at hpq
              simp at hpq
          · rw [if_neg hpq] at h'
            simp at h'
        | cons r rs => simp at h
  · rintro ⟨hraw, hk, hv, hk0, hv0⟩
    subst hraw
    unfold split_raw
    rw [splitOnEq_append k v hk, splitOnEq_no_sep hv]
    have h1 : k.isEmpty = false := by
      cases k with
      | nil => exact absurd rfl hk0
      | cons a l => rfl
    have h2 : v.isEmpty = false := by
      cases v with
      | nil => exact absurd rfl hv0
      | cons a l => rfl
    simp [h1, h2]

theorem split_raw_error {raw e : List Char} (h : split_raw raw = .error e) :
    e = invalidPairMsg ++ raw := by
  unfold split_raw at h
  split at h
  · split at h
    · simp at h
    · injection h with h
      exact h.symm
  · injection h with h
    exact h.symm

end EventStreamMetadata

/-- Claim C2: for every gossip listen address, `local_addr` returns the IPv4
loopback `127.0.0.1` with the same port when the bound ip is unspecified, and
returns the address unchanged otherwise.  The source takes `&self` and
mutates only a copy, which the pure embedding reflects: the argument is
untouched. -/
theorem c2_local_addr_policy (a : GossipListenAddr) :
    (a.addr.ip.is_unspecified = true →
      a.local_addr = ⟨⟨.v4 127 0 0 1, a.addr.port⟩⟩) ∧
    (a.addr.ip.is_unspecified = false → a.local_addr = a) := by
  constructor
  · intro h
    simp [GossipListenAddr.local_addr, h]
  · intro h
    simp [GossipListenAddr.local_addr, h]

/-- Witness for C2 at the default gossip address (unspecified ip) and at an
explicitly bound `192.168.1.1:9638` (returned unchanged, not loopback). -/
theorem c2_local_addr_policy_witness :
    GossipListenAddr.default.local_addr =
      ⟨⟨.v4 127 0 0 1, GossipListenAddr.DEFAULT_PORT⟩⟩ ∧
    (GossipListenAddr.mk ⟨.v4 192 168 1 1, 9638⟩).local_addr =
      GossipListenAddr.mk ⟨.v4 192 168 1 1, 9638⟩ ∧
    ((GossipListenAddr.mk ⟨.v4 192 168 1 1, 9638⟩).local_addr).addr.ip.is_loopback = false := by
  refine ⟨(c2_local_addr_policy GossipListenAddr.default).1 (by decide), ?_, ?_⟩
  · exact (c2_local_addr_policy _).2 (by decide)
  · rw [(c2_local_addr_policy _).2 (by decide)]
    decide

/-- Claim C6: `local_only()` is exactly `127.0.0.2` on the fixed gossip
default port 9638, and its ip is not `127.0.0.1`. -/
theorem c6_local_only_fixed :
    GossipListenAddr.local_only = ⟨⟨.v4 127 0 0 2, 9638⟩⟩ ∧
    GossipListenAddr.local_only.addr.ip ≠ .v4 127 0 0 1 := by
  decide

/-- Claim C7: the gossip default is the unspecified IPv4 address on port
9638, the HTTP default is the unspecified IPv4 address on port 9631, and the
control default is the IPv4 loopback on port 9632. -/
theorem c7_default_addresses :
    GossipListenAddr.default = ⟨⟨.v4 0 0 0 0, 9638⟩⟩ ∧
    GossipListenAddr.default.addr.ip.is_unspecified = true ∧
    HttpListenAddr.default = ⟨⟨.v4 0 0 0 0, 9631⟩⟩ ∧
    HttpListenAddr.default.addr.ip.is_unspecified = true ∧
    ListenCtlAddr.default = ⟨⟨.v4 127 0 0 1, 9632⟩⟩ ∧
    ListenCtlAddr.default.ip.is_loopback = true := by
  decide

/-- Claim C9: `local_addr` on a gossip address bound to the IPv6 unspecified
address `::` substitutes the IPv4 loopback `127.0.0.1` — switching the
address family from IPv6 to IPv4 — while keeping the port. -/
theorem c9_local_addr_ipv6_unspecified (p : Nat) :
    (GossipListenAddr.mk ⟨.v6 0 0 0 0 0 0 0 0, p⟩).local_addr =
      ⟨⟨.v4 127 0 0 1, p⟩⟩ ∧
    ((GossipListenAddr.mk ⟨.v6 0 0 0 0 0 0 0 0, p⟩).local_addr).addr.ip.is_ipv4 = true := by
  constructor
  · simp [GossipListenAddr.local_addr, IpAddr.is_unspecified]
  · simp [GossipListenAddr.local_addr, IpAddr.is_unspecified, IpAddr.is_ipv4]

/-- Claim C10: `local_addr` is idempotent. -/
theorem c10_local_addr_idempotent (a : GossipListenAddr) :
    a.local_addr.local_addr = a.local_addr := by
  by_cases h : a.addr.ip.is_unspecified = true
  · have h1 : a.local_addr = ⟨⟨.v4 127 0 0 1, a.addr.port⟩⟩ := by
      simp [GossipListenAddr.local_addr, h]
    rw [h1]
    simp [GossipListenAddr.local_addr, IpAddr.is_unspecified]
  · have h1 : a.local_addr = a := by
      simp [GossipListenAddr.local_addr, h]
    rw [h1, h1]

/-- Claim C1: resolution of an `EnvConfigValue` type is total and follows
the fallback policy — absent variable yields the default, a present but
unparsable value yields the default without surfacing an error, and a
present parsable value yields exactly the parsed value. -/
theorem c1_env_config_resolution {T E : Type} (parseT : String → Except E T)
    (default : T) (env : Option String) :
    (env = none → configured_value parseT default env = default) ∧
    (∀ raw e, env = some raw → parseT raw = .error e →
      configured_value parseT default env = default) ∧
    (∀ raw v, env = some raw → parseT raw = .ok v →
      configured_value parseT default env = v) := by
  refine ⟨?_, ?_, ?_⟩
  · intro h
    simp [configured_value, h]
  · intro raw e henv hp
    simp [configured_value, henv, hp]
  · intro raw v henv hp
    simp [configured_value, henv, hp]

/-- Witness for C1 mirroring the `env_config` tests: a `u64`-parsed value
with default 2112; absent variable gives 2112, the value "123" gives 123
(different from the default), an unparsable value gives 2112. -/
theorem c1_env_config_resolution_witness :
    configured_value (fun s => parseU64 s.toList) 2112 none = 2112 ∧
    configured_value (fun s => parseU64 s.toList) 2112 (some "123") = 123 ∧
    (123 : Nat) ≠ 2112 ∧
    configured_value (fun s => parseU64 s.toList) 2112 (some "not a number") = 2112 := by
  refine ⟨(c1_env_config_resolution _ _ _).1 rfl, ?_, by decide, ?_⟩
  · exact (c1_env_config_resolution _ _ _).2.2 "123" 123 rfl rfl
  · exact (c1_env_config_resolution _ _ _).2.1 "not a number" .invalidDigit rfl rfl

/-- Claim C3: `AutomateAuthToken::from_str` succeeds on every non-empty
string and the `Display` rendering of the result is that same string; on the
empty string it fails with `InvalidEventStreamToken` carrying the empty
input. -/
theorem c3_auth_token (s : String) :
    (s ≠ "" → ∃ t, AutomateAuthToken.from_str s = .ok t ∧ t.display = s) ∧
    (s = "" →
      AutomateAuthToken.from_str s = .error (.InvalidEventStreamToken "")) := by
  constructor
  · intro h
    refine ⟨⟨s⟩, ?_, rfl⟩
    have he : s.isEmpty = false := by
      rw [Bool.eq_false_iff]
      intro hc
      exact h ((String.isEmpty_iff s).mp hc)
    simp [AutomateAuthToken.from_str, he]
  · intro h
    subst h
    rfl

/-- Witness for C3 at the non-empty token "secret-token" and at the empty
string. -/
theorem c3_auth_token_witness :
    (∃ t, AutomateAuthToken.from_str "secret-token" = .ok t ∧
      t.display = "secret-token") ∧
    AutomateAuthToken.from_str "" = .error (.InvalidEventStreamToken "") := by
  exact ⟨(c3_auth_token "secret-token").1 (by decide),
         (c3_auth_token "").2 rfl⟩

/-- Claim C5: `EventStreamConnectMethod` parsing maps an input whose `u64`
parse is 0 to `Immediate`, an input whose parse is a nonzero `n` to
`Timeout` of `n` seconds, and propagates the underlying integer-parse error
otherwise; the conversion to `Option<Duration>` maps `Immediate` to `none`
and `Timeout n` to a duration of exactly `n` seconds. -/
theorem c5_connect_method (s : List Char) :
    (parseU64 s = .ok 0 →
      EventStreamConnectMethod.from_str s = .ok .Immediate) ∧
    (∀ n, n ≠ 0 → parseU64 s = .ok n →
      EventStreamConnectMethod.from_str s = .ok (.Timeout n)) ∧
    (∀ e, parseU64 s = .error e →
      EventStreamConnectMethod.from_str s = .error e) ∧
    EventStreamConnectMethod.intoDuration .Immediate = none ∧
    (∀ n, EventStreamConnectMethod.intoDuration (.Timeout n) =
      some (Duration.from_secs n)) := by
  refine ⟨?_, ?_, ?_, rfl, fun n => rfl⟩
  · intro h
    simp [EventStreamConnectMethod.from_str, h]
  · intro n hn h
    simp [EventStreamConnectMethod.from_str, h, hn]
  · intro e h
    simp [EventStreamConnectMethod.from_str, h]

/-- Witness for C5 at the spec's examples: "0" parses to `Immediate` (no
duration), "5" parses to a 5-second `Timeout`, "abc" fails with an
invalid-digit error. -/
theorem c5_connect_method_witness :
    EventStreamConnectMethod.from_str ['0'] = .ok .Immediate ∧
    EventStreamConnectMethod.from_str ['5'] = .ok (.Timeout 5) ∧
    EventStreamConnectMethod.intoDuration (.Timeout 5) = some ⟨5⟩ ∧
    EventStreamConnectMethod.from_str ['a', 'b', 'c'] = .error .invalidDigit := by
  refine ⟨(c5_connect_method ['0']).1 rfl, ?_, ?_, ?_⟩
  · exact (c5_connect_method ['5']).2.1 5 (by decide) rfl
  · exact (c5_connect_method ['5']).2.2.2.2 5
  · exact (c5_connect_method ['a', 'b', 'c']).2.2.1 .invalidDigit rfl

/-- Claim C4: metadata-token validation succeeds exactly when the token
splits as `key ++ = ++ value` with both parts non-empty and free of further
separators (i.e. exactly one `=`); `split_raw` then yields the pair
`(key, value)`, and every failure carries the error message naming the
offending token. -/
theorem c4_metadata_validation (raw : List Char) :
    (EventStreamMetadata.validate raw = .ok () ↔
      ∃ k v, raw = k ++ '=' :: v ∧ '=' ∉ k ∧ '=' ∉ v ∧ k ≠ [] ∧ v ≠ []) ∧
    (∀ k v, raw = k ++ '=' :: v → '=' ∉ k → '=' ∉ v → k ≠ [] → v ≠ [] →
      EventStreamMetadata.split_raw raw = .ok (k, v)) ∧
    (∀ e, EventStreamMetadata.validate raw = .error e →
      e = EventStreamMetadata.invalidPairMsg ++ raw) := by
  refine ⟨⟨?_, ?_⟩, ?_, ?_⟩
  · intro h
    unfold EventStreamMetadata.validate at h
    cases hs : EventStreamMetadata.split_raw raw with
    | error e =>
      rw [hs] at h
      simp [Except.map] at h
    | ok p =>
      obtain ⟨k, v⟩ := p
      obtain ⟨h1, h2, h3, h4, h5⟩ := (EventStreamMetadata.split_raw_ok_iff raw k v).mp hs
      exact ⟨k, v, h1, h2, h3, h4, h5⟩
  · rintro ⟨k, v, h1, h2, h3, h4, h5⟩
    have hok := (EventStreamMetadata.split_raw_ok_iff raw k v).mpr ⟨h1, h2, h3, h4, h5⟩
    unfold EventStreamMetadata.validate
    rw [hok]
    rfl
  · intro k v h1 h2 h3 h4 h5
    exact (EventStreamMetadata.split_raw_ok_iff raw k v).mpr ⟨h1, h2, h3, h4, h5⟩
  · intro e h
    unfold EventStreamMetadata.validate at h
    cases hs : EventStreamMetadata.split_raw raw with
    | ok p =>
      rw [hs] at h
      simp [Except.map] at h
    | error e' =>
      rw [hs] at h
      have he : e' = e := by simpa [Except.map] using h
      exact he ▸ EventStreamMetadata.split_raw_error hs

/-- Witness for C4 at the valid token "foo=bar" (split succeeds with key
"foo" and value "bar"). -/
theorem c4_metadata_validation_witness :
    EventStreamMetadata.split_raw (['f', 'o', 'o'] ++ '=' :: ['b', 'a', 'r']) =
      .ok (['f', 'o', 'o'], ['b', 'a', 'r']) ∧
    EventStreamMetadata.validate ['f', 'o', 'o', '=', 'b', 'a', 'r'] = .ok () := by
  constructor
  · exact (c4_metadata_validation _).2.1 ['f', 'o', 'o'] ['b', 'a', 'r'] rfl
      (by decide) (by decide) (by decide) (by decide)
  · exact (c4_metadata_validation _).1.mpr
      ⟨['f', 'o', 'o'], ['b', 'a', 'r'], by decide, by decide, by decide,
        by decide, by decide⟩

/-- Claim C8: on any token accepted by `EventStreamMetadata::validate`, the
split re-run by `split_validated` during construction succeeds, so its panic
branch (modelled as `none`) is unreachable. -/
theorem c8_split_validated_infallible (raw : List Char)
    (h : EventStreamMetadata.validate raw = .ok ()) :
    ∃ p, EventStreamMetadata.split_validated raw = some p := by
  unfold EventStreamMetadata.validate at h
  cases hs : EventStreamMetadata.split_raw raw with
  | error e =>
    rw [hs] at h
    simp [Except.map] at h
  | ok p =>
    refine ⟨p, ?_⟩
    unfold EventStreamMetadata.split_validated
    rw [hs]

/-- Witness for C8 at the validated token "a=b". -/
theorem c8_split_validated_infallible_witness :
    ∃ p, EventStreamMetadata.split_validated ['a', '=', 'b'] = some p :=
  c8_split_validated_infallible ['a', '=', 'b'] rfl

end Habitat
